import Mathlib

/-!
Verification of the newsBot ingestion / dedup / ranking / scheduling pipeline.

Shallow embedding conventions:
* Python floats are embedded as rationals (`ℚ`).
* A Python `datetime` is a naive wall-clock value (seconds, rational so that
  sub-second precision is representable) together with an optional timezone
  offset (`tzinfo`).
* The SQLite news table is embedded as a list of rows; the UNIQUE constraints
  on `title`, `link` and `content_hash` decide when an INSERT raises
  `IntegrityError` (caught by `add_news`, which then returns `None`).
* SHA-256 is abstracted as an arbitrary function `H : String → String`: the
  claims about the fingerprint depend only on the digest being a function of
  its input string, never on any other property of SHA-256.
* Fallible code returns `Option` / `Except`; asynchronous loops are embedded
  as fuel-indexed structural recursions over explicit traces of outcomes.
-/

namespace NewsBot

/-- A Python `datetime`: naive wall-clock value in seconds plus an optional
timezone offset (the `tzinfo`). `replace(tzinfo=None)` keeps the naive value
and drops the offset. -/
structure PyDateTime where
  naive : ℚ
  tz : Option ℚ := none
deriving DecidableEq

/-- `datetime.replace(tzinfo=None)` from `ranking._calculate_freshness_score`:
the naive fields are kept, the offset is dropped. -/
def replace_tznone (d : PyDateTime) : PyDateTime :=
  { d with tz := none }

/-- The `News` dataclass of `database/models.py` (the `id` and the lazily
computed `content_hash` cache are handled by the store model / the hash
function below). -/
structure News where
  title : String
  link : String
  description : String
  source : String
  published_at : PyDateTime
  language : String
  rating : ℚ := 0
  parsed_at : PyDateTime := ⟨0, none⟩
deriving DecidableEq

/-- The string hashed by `News.calculate_hash`:
`f"{self.title}{self.link}{self.description}"` — plain concatenation with no
separator. -/
def hashInput (n : News) : String :=
  n.title ++ n.link ++ n.description

/-- `News.calculate_hash`, with SHA-256 abstracted as an arbitrary digest
function `H` (only its functionality matters to the claims). -/
def calculate_hash (H : String → String) (n : News) : String :=
  H (hashInput n)

/-- A stored row `m` conflicts with a candidate row `n` exactly when one of
the UNIQUE columns of the `news` table (`title`, `link`, `content_hash`)
collides; this is when SQLite raises `IntegrityError` on the INSERT. -/
def newsConflict (H : String → String) (m n : News) : Bool :=
  m.title == n.title || m.link == n.link ||
    calculate_hash H m == calculate_hash H n

/-- `DatabaseManager.add_news`: attempt the INSERT; on `IntegrityError`
(a duplicate on one of the unique axes) the transaction is rolled back and
`None` is returned, otherwise the new row id is returned.  The result is the
returned id (`none` = Python `None`) together with the store after the call. -/
def add_news (H : String → String) (db : List News) (n : News) :
    Option Nat × List News :=
  if db.any (fun m => newsConflict H m n) then (none, db)
  else (some (db.length + 1), db ++ [n])

end NewsBot

namespace NewsBot

/-- C1: inserting the same entry twice yields one successful insert and a
no-op second attempt.  On a store free of conflicts with `n`, `add_news`
returns a non-`None` id and appends `n`; a second call with any entry `n2`
sharing the title, the link, or the content fingerprint returns `None` and
leaves the store unchanged (no exception: the function is total); and the
fingerprint is computed only from title, link and description, so source and
timestamp metadata are irrelevant to it. -/
theorem add_news_dedup (H : String → String) (db : List News) (n n2 : News)
    (hfree : ∀ m ∈ db, newsConflict H m n = false)
    (hdup : n2.title = n.title ∨ n2.link = n.link ∨
      calculate_hash H n2 = calculate_hash H n) :
    (add_news H db n).1.isSome = true ∧
    (add_news H db n).2 = db ++ [n] ∧
    add_news H (add_news H db n).2 n2 = (none, db ++ [n]) ∧
    (∀ a b : News, a.title = b.title → a.link = b.link →
      a.description = b.description → calculate_hash H a = calculate_hash H b) := by
  have hany : db.any (fun m => newsConflict H m n) = false := by
    simp only [List.any_eq_false]
    intro m hm
    simpa using hfree m hm
  have h1 : add_news H db n = (some (db.length + 1), db ++ [n]) := by
    simp [add_news, hany]
  refine ⟨by simp [h1], by simp [h1], ?_, ?_⟩
  · have hconf : newsConflict H n n2 = true := by
      simp only [newsConflict, Bool.or_eq_true, beq_iff_eq]
      rcases hdup with h | h | h
      · exact Or.inl (Or.inl h.symm)
      · exact Or.inl (Or.inr h.symm)
      · exact Or.inr h.symm
    have hmem : n ∈ db ++ [n] := by simp
    have hany2 : (db ++ [n]).any (fun m => newsConflict H m n2) = true := by
      simp only [List.any_eq_true]
      exact ⟨n, hmem, hconf⟩
    have h2 : (add_news H db n).2 = db ++ [n] := by simp [h1]
    rw [h2]
    simp [add_news, hany2]
  · intro a b ht hl hd
    simp [calculate_hash, hashInput, ht, hl, hd]

/-- Concrete entry used by witnesses. -/
def newsA : News :=
  { title := "t1", link := "l1", description := "d1", source := "s1",
    published_at := ⟨0, none⟩, language := "en" }

/-- Concrete entry sharing `newsA`'s title but differing in every other
piece of metadata. -/
def newsB : News :=
  { title := "t1", link := "l2", description := "d2", source := "s2",
    published_at := ⟨5, some 3600⟩, language := "ru", rating := 7 }

/-- Witness for C1: the hypotheses hold at the concrete store `[]`, entry
`newsA` and duplicate `newsB`. -/
theorem add_news_dedup_witness :
    (add_news id [] newsA).1.isSome = true ∧
    (add_news id [] newsA).2 = [] ++ [newsA] ∧
    add_news id (add_news id [] newsA).2 newsB = (none, [] ++ [newsA]) ∧
    (∀ a b : News, a.title = b.title → a.link = b.link →
      a.description = b.description →
      calculate_hash id a = calculate_hash id b) :=
  add_news_dedup id [] newsA newsB (by simp) (Or.inl rfl)

/-- First half of the C10 collision pair. -/
def collideNews1 : News :=
  { title := "ab", link := "c", description := "d", source := "s1",
    published_at := ⟨0, none⟩, language := "en" }

/-- Second half of the C10 collision pair. -/
def collideNews2 : News :=
  { title := "a", link := "bc", description := "d", source := "s2",
    published_at := ⟨1, none⟩, language := "en" }

/-- C10: the fingerprint is not injective in the (title, link, description)
triple.  `calculate_hash` hashes `title ++ link ++ description` with no
separator, so the distinct triples ("ab", "c", "d") and ("a", "bc", "d")
produce the same hash input and hence the same digest under every digest
function — the deduplicator can conflate two distinct articles. -/
theorem calculate_hash_not_injective :
    (collideNews1.title, collideNews1.link, collideNews1.description) ≠
      (collideNews2.title, collideNews2.link, collideNews2.description) ∧
    hashInput collideNews1 = hashInput collideNews2 ∧
    ∀ H : String → String,
      calculate_hash H collideNews1 = calculate_hash H collideNews2 := by
  refine ⟨by decide, by decide, fun H => ?_⟩
  have h : hashInput collideNews1 = hashInput collideNews2 := by decide
  simp [calculate_hash, h]

end NewsBot

namespace NewsBot

/-! ### `config/settings.py` and `config/sources.py` -/

/-- `WEIGHT_FRESHNESS` from `config/settings.py`. -/
def WEIGHT_FRESHNESS : ℚ := 0.3

/-- `WEIGHT_SOURCE` from `config/settings.py`. -/
def WEIGHT_SOURCE : ℚ := 0.25

/-- `WEIGHT_KEYWORDS` from `config/settings.py`. -/
def WEIGHT_KEYWORDS : ℚ := 0.25

/-- `WEIGHT_LENGTH` from `config/settings.py`. -/
def WEIGHT_LENGTH : ℚ := 0.2

/-- `RATING_MIN` from `config/settings.py`. -/
def RATING_MIN : ℚ := 0

/-- `RATING_MAX` from `config/settings.py`. -/
def RATING_MAX : ℚ := 10

/-- `MAX_RETRIES` from `config/settings.py`. -/
def MAX_RETRIES : Nat := 3

/-- `RETRY_DELAY` from `config/settings.py` (seconds). -/
def RETRY_DELAY : Nat := 2

/-- `REQUEST_TIMEOUT` from `config/settings.py` (seconds, per attempt). -/
def REQUEST_TIMEOUT : Nat := 30

/-- One entry of `RSS_SOURCES` in `config/sources.py`. -/
structure RssSource where
  name : String
  url : String
  language : String
  weight : ℚ
  category : String

/-- The `RSS_SOURCES` list of `config/sources.py`. -/
def RSS_SOURCES : List RssSource :=
  [ ⟨"Dev.to", "https://dev.to/feed", "en", 8.5, "vibe-coding"⟩,
    ⟨"Hacker News", "https://hnrss.org/newest", "en", 9.0, "vibe-coding"⟩,
    ⟨"Reddit Programming", "https://www.reddit.com/r/programming/.rss", "en",
      7.5, "vibe-coding"⟩,
    ⟨"GitHub Blog", "https://github.blog/feed/", "en", 8.0, "vibe-coding"⟩,
    ⟨"Habr", "https://habr.com/ru/rss/all/all/", "ru", 9.0, "vibe-coding"⟩,
    ⟨"Tproger", "https://tproger.ru/feed/", "ru", 8.0, "vibe-coding"⟩ ]

/-- `RELEVANCE_KEYWORDS` from `config/settings.py` (the fixed bilingual
relevance vocabulary, duplicates kept exactly as in the source). -/
def RELEVANCE_KEYWORDS : List String :=
  [ "vibe coding", "вайб кодинг", "coding vibe", "атмосфера программирования",
    "programming", "программирование",
    "coding", "кодинг", "кодирование",
    "development", "разработка",
    "software development", "разработка софта",
    "app development", "разработка приложений",
    "web development", "веб-разработка",
    "backend", "бэкенд", "backend development", "разработка бэкенда",
    "frontend", "фронтенд", "frontend development", "разработка фронтенда",
    "fullstack", "фулстек", "fullstack developer", "фулстек разработчик",
    "code", "код",
    "source code", "исходный код",
    "clean code", "чистый код",
    "developer", "разработчик",
    "software engineer", "инженер-программист",
    "programmer", "программист",
    "fullstack developer", "фулстек разработчик",
    "ai developer", "разработчик интеллект",
    "machine learning engineer", "инженер по машинному обучению",
    "artificial intelligence", "искусственный интеллект", "ai", "ии",
    "machine learning", "машинное обучение",
    "neural networks", "нейронные сети",
    "deep learning", "глубокое обучение",
    "ml engineer", "ml инженер",
    "ai tools", "инструменты ии",
    "cursor", "курсор",
    "cursor ide", "cursor иде", "cursor editor", "editor cursor", "редактор cursor",
    "integrated development environment", "интегрированная среда разработки",
    "ide", "среда разработки",
    "text editor", "текстовый редактор",
    "git", "гит",
    "github", "гитхаб",
    "version control", "система контроля версий",
    "repository", "репозиторий",
    "command line", "командная строка",
    "terminal", "терминал",
    "python", "питон",
    "javascript", "джаваскрипт",
    "typescript", "тайпскрипт",
    "java", "ява",
    "c++", "си плюс плюс",
    "c#", "си шарп",
    "go", "го",
    "rust", "раст",
    "sql", "скьюэль",
    "algorithm", "алгоритм",
    "data structure", "структура данных",
    "function", "функция",
    "variable", "переменная",
    "loop", "цикл",
    "debug", "отладка",
    "refactor", "рефакторинг",
    "pull request", "пулл-реквест",
    "commit", "коммит",
    "deploy", "деплой",
    "cloud", "облако",
    "open source", "опенсорс",
    "stack overflow", "стэк оверфлоу",
    "best practice", "лучшие практики" ]

/-! ### `parser/ranking.py` -/

/-- `RankingEngine.__init__`: the source-name-to-weight dictionary built from
`RSS_SOURCES` (names in the list are pairwise distinct, so first-match lookup
agrees with the Python dict). -/
def source_weights (name : String) : Option ℚ :=
  (RSS_SOURCES.find? (fun s => s.name == name)).map (fun s => s.weight)

/-- `RankingEngine._calculate_source_score`:
`self.source_weights.get(source, 5.0) / 10.0`. -/
def calculate_source_score (source : String) : ℚ :=
  (source_weights source).getD 5 / 10

/-- `RankingEngine._calculate_freshness_score`: the timezone offset is dropped
(`replace(tzinfo=None)`), the age `now - published_at` is compared against the
step thresholds 1h, 3h, 6h, 12h, 1 day. -/
def calculate_freshness_score (now : ℚ) (published_at : PyDateTime) : ℚ :=
  if now - (replace_tznone published_at).naive < 3600 then 1
  else if now - (replace_tznone published_at).naive < 10800 then 0.9
  else if now - (replace_tznone published_at).naive < 21600 then 0.7
  else if now - (replace_tznone published_at).naive < 43200 then 0.5
  else if now - (replace_tznone published_at).naive < 86400 then 0.3
  else 0.1

/-- Python regex word character (`\w`), restricted to the alphabets that occur
in the texts and vocabulary of this program: ASCII letters, digits,
underscore, and the Cyrillic block U+0400–U+04FF. -/
def isWordChar (c : Char) : Bool :=
  (97 ≤ c.toNat && c.toNat ≤ 122) || (65 ≤ c.toNat && c.toNat ≤ 90) ||
    (48 ≤ c.toNat && c.toNat ≤ 57) || c.toNat == 95 ||
    (0x400 ≤ c.toNat && c.toNat ≤ 0x4FF)

/-- `isWordChar` on an optional character; the ends of the string count as
non-word positions, as in Python `\b`. -/
def optIsWord : Option Char → Bool
  | none => false
  | some c => isWordChar c

/-- Python `str.lower` on one character, for the alphabets occurring here:
ASCII A–Z, Cyrillic А–Я and Ё. -/
def pyToLower (c : Char) : Char :=
  if 65 ≤ c.toNat && c.toNat ≤ 90 then Char.ofNat (c.toNat + 32)
  else if 0x410 ≤ c.toNat && c.toNat ≤ 0x42F then Char.ofNat (c.toNat + 0x20)
  else if c.toNat == 0x401 then Char.ofNat 0x451
  else c

/-- Python `str.lower` on a string, as a character list. -/
def lowerStr (s : String) : List Char :=
  s.data.map pyToLower

/-- One step of `re.findall` for the pattern
`r"\b" + re.escape(keyword) + r"\b"` (a literal keyword surrounded by word
boundaries): scan left to right, count non-overlapping occurrences, resume
after the end of each match.  `prev` is the character before the current
position; `fuel` starts at the text length and dominates the scan (keywords
are nonempty, so the text shrinks at every step). -/
def countOccAux (kw : List Char) : Nat → Option Char → List Char → Nat
  | 0, _, _ => 0
  | _, _, [] => 0
  | fuel + 1, prev, c :: rest =>
    if kw.isPrefixOf (c :: rest) &&
       (optIsWord prev != optIsWord kw.head?) &&
       (optIsWord kw.getLast? != optIsWord ((c :: rest).drop kw.length).head?)
    then 1 + countOccAux kw fuel (kw.getLast?.getD c) (rest.drop (kw.length - 1))
    else countOccAux kw fuel (some c) rest

/-- Number of whole-word matches of `kw` in `text`, both already lowercased
(`len(re.findall(pattern, text))` in `_calculate_keyword_score`). -/
def countOcc (kw text : List Char) : Nat :=
  countOccAux kw text.length none text

/-- The total keyword count of `_calculate_keyword_score`: the sum over the
whole vocabulary of whole-word, case-insensitive match counts inside
`f"{title} {description}".lower()`. -/
def keyword_count (title description : String) : Nat :=
  (RELEVANCE_KEYWORDS.map
    (fun kw => countOcc (lowerStr kw) (lowerStr (title ++ " " ++ description)))).sum

/-- `RankingEngine._calculate_keyword_score`: `min(1.0, keyword_count / 5.0)`. -/
def calculate_keyword_score (title description : String) : ℚ :=
  min 1 ((keyword_count title description : ℚ) / 5)

/-- `RankingEngine._calculate_length_score`. -/
def calculate_length_score (article_length : Nat) : ℚ :=
  if article_length = 0 then 0.5
  else if 500 ≤ article_length ∧ article_length ≤ 2000 then 1
  else if 300 ≤ article_length ∧ article_length < 500 then 0.8
  else if 2000 < article_length ∧ article_length ≤ 3000 then 0.8
  else if 100 ≤ article_length ∧ article_length < 300 then 0.5
  else 0.3

/-- Python `round(x)` to the nearest integer with ties to even (the tie rule
of `round(x, 2)` on the exact value, floats embedded as rationals). -/
def pyRoundHalfEven (q : ℚ) : ℤ :=
  if q - ⌊q⌋ < 1 / 2 then ⌊q⌋
  else if 1 / 2 < q - ⌊q⌋ then ⌊q⌋ + 1
  else if ⌊q⌋ % 2 = 0 then ⌊q⌋ else ⌊q⌋ + 1

/-- Python `round(x, 2)`. -/
def round2 (q : ℚ) : ℚ :=
  (pyRoundHalfEven (q * 100) : ℚ) / 100

/-- `RankingEngine.calculate_rating`, with the wall clock `now` (read inside
`_calculate_freshness_score` via `datetime.now()`) held as an explicit
parameter. -/
def calculate_rating (now : ℚ) (news : News) (article_length : Nat) : ℚ :=
  round2 (max RATING_MIN (min RATING_MAX
    ((calculate_freshness_score now news.published_at * WEIGHT_FRESHNESS +
      calculate_source_score news.source * WEIGHT_SOURCE +
      calculate_keyword_score news.title news.description * WEIGHT_KEYWORDS +
      calculate_length_score article_length * WEIGHT_LENGTH) * RATING_MAX)))

end NewsBot

namespace NewsBot

/-- If `n ≤ q` then `n ≤ pyRoundHalfEven q`. -/
theorem le_pyRoundHalfEven (n : ℤ) (q : ℚ) (h : (n : ℚ) ≤ q) :
    n ≤ pyRoundHalfEven q := by
  have hf : n ≤ ⌊q⌋ := Int.le_floor.mpr h
  unfold pyRoundHalfEven
  split_ifs <;> omega

/-- If `q ≤ n` then `pyRoundHalfEven q ≤ n`. -/
theorem pyRoundHalfEven_le (n : ℤ) (q : ℚ) (h : q ≤ n) :
    pyRoundHalfEven q ≤ n := by
  have hf : ⌊q⌋ ≤ n := by
    have := Int.floor_mono h
    simpa using this
  unfold pyRoundHalfEven
  split_ifs with h1 h2 h3
  · exact hf
  · have hq : (⌊q⌋ : ℚ) + 1 / 2 ≤ (n : ℚ) := by
      have := Int.floor_le q
      linarith [not_lt.mp h1]
    have : (⌊q⌋ : ℚ) < (n : ℚ) := by linarith
    have : ⌊q⌋ < n := by exact_mod_cast this
    omega
  · exact hf
  · have hq : (⌊q⌋ : ℚ) + 1 / 2 ≤ (n : ℚ) := by
      have := Int.floor_le q
      linarith [not_lt.mp h1]
    have : (⌊q⌋ : ℚ) < (n : ℚ) := by linarith
    have : ⌊q⌋ < n := by exact_mod_cast this
    omega

/-- Rounding to two decimals maps `[0, 10]` into `[0, 10]`. -/
theorem round2_bounds (q : ℚ) (h0 : 0 ≤ q) (h10 : q ≤ 10) :
    0 ≤ round2 q ∧ round2 q ≤ 10 := by
  have l1 : (0 : ℤ) ≤ pyRoundHalfEven (q * 100) := by
    apply le_pyRoundHalfEven
    push_cast
    linarith
  have l2 : pyRoundHalfEven (q * 100) ≤ (1000 : ℤ) := by
    apply pyRoundHalfEven_le
    push_cast
    linarith
  unfold round2
  constructor
  · apply div_nonneg _ (by norm_num)
    exact_mod_cast l1
  · rw [div_le_iff₀ (by norm_num)]
    have : ((pyRoundHalfEven (q * 100) : ℤ) : ℚ) ≤ 1000 := by exact_mod_cast l2
    linarith

/-- The clamp-then-round tail of `calculate_rating` always lands in `[0, 10]`. -/
theorem round2_clamp_bounds (x : ℚ) :
    0 ≤ round2 (max RATING_MIN (min RATING_MAX x)) ∧
    round2 (max RATING_MIN (min RATING_MAX x)) ≤ 10 := by
  have h0 : 0 ≤ max RATING_MIN (min RATING_MAX x) := by
    simp only [RATING_MIN]
    exact le_max_left 0 _
  have h10 : max RATING_MIN (min RATING_MAX x) ≤ 10 := by
    apply max_le
    · norm_num [RATING_MIN]
    · simpa [RATING_MAX] using min_le_left (10 : ℚ) x
  exact round2_bounds _ h0 h10

/-- C2: with the wall clock held fixed, `calculate_rating` is a pure
deterministic function — two calls with identical inputs return identical
results; the result equals the weighted sum
(freshness·0.3 + source·0.25 + keywords·0.25 + length·0.2) times 10 clamped
to `[0, 10]` and rounded to two decimals; and the rating always lies within
`[0, 10]`. -/
theorem calculate_rating_spec (now : ℚ) (news : News) (article_length : Nat) :
    calculate_rating now news article_length =
      calculate_rating now news article_length ∧
    calculate_rating now news article_length =
      round2 (max 0 (min 10
        ((calculate_freshness_score now news.published_at * 0.3 +
          calculate_source_score news.source * 0.25 +
          calculate_keyword_score news.title news.description * 0.25 +
          calculate_length_score article_length * 0.2) * 10))) ∧
    0 ≤ calculate_rating now news article_length ∧
    calculate_rating now news article_length ≤ 10 := by
  refine ⟨rfl, rfl, ?_, ?_⟩
  · exact (round2_clamp_bounds _).1
  · exact (round2_clamp_bounds _).2

/-- C5: freshness monotonicity — with a fixed `now`, an entry whose
`published_at` is strictly more recent (after dropping any timezone offset,
as the code does before subtracting) never receives a lower freshness
component. -/
theorem freshness_monotone (now : ℚ) (p1 p2 : PyDateTime)
    (h : (replace_tznone p2).naive < (replace_tznone p1).naive) :
    calculate_freshness_score now p2 ≤ calculate_freshness_score now p1 := by
  simp only [calculate_freshness_score, replace_tznone] at *
  split_ifs <;> linarith

/-- Witness for C5: an entry published 100 seconds ago against one published
two hours earlier (with an offset to drop). -/
theorem freshness_monotone_witness :
    calculate_freshness_score 7300 ⟨0, some 10800⟩ ≤
      calculate_freshness_score 7300 ⟨7200, none⟩ :=
  freshness_monotone 7300 ⟨7200, none⟩ ⟨0, some 10800⟩
    (by norm_num [replace_tznone])

/-- C6: the keyword component equals `min(1, count / 5)` where `count` is the
number of whole-word, case-insensitive matches of the relevance vocabulary in
`title + " " + summary`; five or more matches saturate the component at 1 and
zero matches give exactly 0. -/
theorem keyword_score_saturation (title description : String) :
    calculate_keyword_score title description =
      min 1 ((keyword_count title description : ℚ) / 5) ∧
    (5 ≤ keyword_count title description →
      calculate_keyword_score title description = 1) ∧
    (keyword_count title description = 0 →
      calculate_keyword_score title description = 0) := by
  refine ⟨rfl, ?_, ?_⟩
  · intro h
    have h5 : (5 : ℚ) ≤ (keyword_count title description : ℚ) := by
      exact_mod_cast h
    have h1 : (1 : ℚ) ≤ (keyword_count title description : ℚ) / 5 := by
      rw [le_div_iff (by norm_num)]
      linarith
    simp [calculate_keyword_score, min_eq_left h1]
  · intro h
    simp [calculate_keyword_score, h]

end NewsBot

namespace NewsBot

set_option maxRecDepth 10000

/-- Witness for C6: a title with five whole-word matches of the vocabulary
saturates the keyword component at 1, and a text with no matches scores 0. -/
theorem keyword_score_saturation_witness :
    calculate_keyword_score "code code code code code" "" = 1 ∧
    calculate_keyword_score "zzz" "" = 0 :=
  ⟨(keyword_score_saturation "code code code code code" "").2.1 (by decide),
   (keyword_score_saturation "zzz" "").2.2 (by decide)⟩

end NewsBot

namespace NewsBot

/-! ### `RankingEngine.rank_news_list` -/

/-- Stable descending insertion: the new element goes after every element of
strictly higher rating and before the first element of lower-or-equal rating.
This is the order produced by the stable
`sorted(news_list, key=lambda x: x.rating, reverse=True)`. -/
def orderedInsertDesc (x : News) : List News → List News
  | [] => [x]
  | y :: ys =>
    if y.rating ≤ x.rating then x :: y :: ys else y :: orderedInsertDesc x ys

/-- The stable descending sort of
`sorted(news_list, key=lambda x: x.rating, reverse=True)`.  Python's timsort
is stable; a stable descending sort is determined up to extensional equality
by the permutation, sortedness and stability properties proved below, so this
insertion sort is an adequate embedding of it. -/
def sortByRatingDesc : List News → List News
  | [] => []
  | x :: xs => orderedInsertDesc x (sortByRatingDesc xs)

/-- `article_lengths.get(news.link, 0)`, the Python dict embedded as an
association list (keys are links, there is one per article). -/
def lengthFor (article_lengths : List (String × Nat)) (link : String) : Nat :=
  ((article_lengths.find? (fun p => p.1 == link)).map Prod.snd).getD 0

/-- The rating-assignment loop of `rank_news_list`: every entry receives the
rating computed by `calculate_rating` (mutation embedded as a map). -/
def withRatings (now : ℚ) (article_lengths : List (String × Nat))
    (news_list : List News) : List News :=
  news_list.map (fun n =>
    { n with rating := calculate_rating now n (lengthFor article_lengths n.link) })

/-- `RankingEngine.rank_news_list`, with the wall clock explicit: assign
ratings, then sort descending by rating. -/
def rank_news_list (now : ℚ) (news_list : List News)
    (article_lengths : List (String × Nat)) : List News :=
  sortByRatingDesc (withRatings now article_lengths news_list)

/-- Inserting is a permutation of consing. -/
theorem perm_orderedInsertDesc (x : News) (l : List News) :
    (orderedInsertDesc x l).Perm (x :: l) := by
  induction l with
  | nil => exact List.Perm.refl [x]
  | cons y ys ih =>
    by_cases h : y.rating ≤ x.rating
    · simp [orderedInsertDesc, h]
    · simp only [orderedInsertDesc, if_neg h]
      exact (ih.cons y).trans (List.Perm.swap x y ys)

/-- Inserting into a descending-sorted list keeps it descending-sorted. -/
theorem sorted_orderedInsertDesc (x : News) (l : List News)
    (hl : l.Pairwise (fun a b => b.rating ≤ a.rating)) :
    (orderedInsertDesc x l).Pairwise (fun a b => b.rating ≤ a.rating) := by
  induction l with
  | nil => simp [orderedInsertDesc]
  | cons y ys ih =>
    rcases List.pairwise_cons.mp hl with ⟨hy, hys⟩
    by_cases h : y.rating ≤ x.rating
    · simp only [orderedInsertDesc, if_pos h]
      refine List.pairwise_cons.mpr ⟨?_, hl⟩
      intro z hz
      rcases List.mem_cons.mp hz with rfl | hz'
      · exact h
      · exact le_trans (hy z hz') h
    · simp only [orderedInsertDesc, if_neg h]
      refine List.pairwise_cons.mpr ⟨?_, ih hys⟩
      intro z hz
      have hz' : z = x ∨ z ∈ ys := by
        simpa using (perm_orderedInsertDesc x ys).mem_iff.mp hz
      rcases hz' with rfl | hz'
      · exact le_of_lt (lt_of_not_le h)
      · exact hy z hz'

/-- Stability of one insertion: the equal-rating subsequence gains the new
element at the front exactly when its rating matches, because the elements the
insertion passes over all have strictly higher rating. -/
theorem filter_orderedInsertDesc (x : News) (l : List News) (r : ℚ) :
    (orderedInsertDesc x l).filter (fun n => n.rating == r) =
      if x.rating == r then x :: l.filter (fun n => n.rating == r)
      else l.filter (fun n => n.rating == r) := by
  induction l with
  | nil =>
    by_cases hx : x.rating == r
    · simp [orderedInsertDesc, List.filter, hx]
    · simp [orderedInsertDesc, List.filter, hx]
  | cons y ys ih =>
    by_cases h : y.rating ≤ x.rating
    · by_cases hx : x.rating == r
      · simp [orderedInsertDesc, if_pos h, List.filter_cons, hx]
      · simp [orderedInsertDesc, if_pos h, List.filter_cons, hx]
    · by_cases hx : x.rating == r
      · have hxr : x.rating = r := by simpa using hx
        have hyr : (y.rating == r) = false := by
          have : x.rating < y.rating := lt_of_not_le h
          simp only [beq_eq_false_iff_ne, ne_eq]
          intro hc
          rw [hxr] at this
          exact absurd hc (ne_of_gt this)
        simp [orderedInsertDesc, if_neg h, List.filter_cons, hyr, hx, ih]
      · simp only [orderedInsertDesc, if_neg h, List.filter_cons]
        by_cases hy : y.rating == r
        · simp [hy, ih, hx]
        · simp [hy, ih, hx]

/-- The sort is a permutation. -/
theorem perm_sortByRatingDesc (l : List News) : (sortByRatingDesc l).Perm l := by
  induction l with
  | nil => exact List.Perm.refl []
  | cons x xs ih =>
    exact (perm_orderedInsertDesc x (sortByRatingDesc xs)).trans (ih.cons x)

/-- The sort output is descending in rating. -/
theorem sorted_sortByRatingDesc (l : List News) :
    (sortByRatingDesc l).Pairwise (fun a b => b.rating ≤ a.rating) := by
  induction l with
  | nil => simp [sortByRatingDesc]
  | cons x xs ih => exact sorted_orderedInsertDesc x _ ih

/-- The sort is stable: each equal-rating class keeps its input order. -/
theorem filter_sortByRatingDesc (l : List News) (r : ℚ) :
    (sortByRatingDesc l).filter (fun n => n.rating == r) =
      l.filter (fun n => n.rating == r) := by
  induction l with
  | nil => rfl
  | cons x xs ih =>
    by_cases hx : x.rating == r
    · simp [sortByRatingDesc, filter_orderedInsertDesc, hx, ih, List.filter_cons]
    · simp [sortByRatingDesc, filter_orderedInsertDesc, hx, ih, List.filter_cons]

/-- C9: `rank_news_list` returns a permutation of the input list (with its
computed ratings assigned), sorted in descending order of rating, and the
sort is stable — entries with equal rating appear in the same relative order
as in the input, expressed as preservation of every equal-rating filter. -/
theorem rank_news_list_spec (now : ℚ) (news_list : List News)
    (article_lengths : List (String × Nat)) :
    (rank_news_list now news_list article_lengths).Perm
      (withRatings now article_lengths news_list) ∧
    (rank_news_list now news_list article_lengths).Pairwise
      (fun a b => b.rating ≤ a.rating) ∧
    ∀ r : ℚ,
      (rank_news_list now news_list article_lengths).filter
          (fun n => n.rating == r) =
        (withRatings now article_lengths news_list).filter
          (fun n => n.rating == r) :=
  ⟨perm_sortByRatingDesc _, sorted_sortByRatingDesc _,
    fun r => filter_sortByRatingDesc _ r⟩

end NewsBot

namespace NewsBot

/-! ### `parser/rss_parser.py` -/

/-- What one HTTP attempt inside `fetch_feed` can produce: a response with a
status and body, a timeout (`asyncio.TimeoutError`), or any other network
exception. -/
inductive AttemptOutcome
  | response (status : Nat) (body : String)
  | timeout
  | netError
deriving DecidableEq

/-- The success test of one attempt in `fetch_feed`: only
`response.status == 200` returns the body; every other status, a timeout or
an exception falls through to the retry logic. -/
def attemptSuccess : AttemptOutcome → Option String
  | .response status body => if status = 200 then some body else none
  | .timeout => none
  | .netError => none

/-- The `for attempt in range(MAX_RETRIES)` loop of `RSSParser.fetch_feed`,
recursing on the number of remaining attempts.  The result is the returned
string together with the trace of inter-attempt sleeps
(`await asyncio.sleep(RETRY_DELAY)` runs only when `attempt < MAX_RETRIES - 1`).
After the loop the function returns the empty string. -/
def fetchFeedAux (attempts : Nat → AttemptOutcome) :
    Nat → Nat → String × List Nat
  | _, 0 => ("", [])
  | attempt, remaining + 1 =>
    match attemptSuccess (attempts attempt) with
    | some body => (body, [])
    | none =>
      if remaining = 0 then ("", [])
      else
        ((fetchFeedAux attempts (attempt + 1) remaining).1,
          RETRY_DELAY :: (fetchFeedAux attempts (attempt + 1) remaining).2)

/-- `RSSParser.fetch_feed`: up to `MAX_RETRIES` attempts over the given trace
of attempt outcomes. -/
def fetch_feed (attempts : Nat → AttemptOutcome) : String × List Nat :=
  fetchFeedAux attempts 0 MAX_RETRIES

/-- An outcome that is not a status-200 response never succeeds. -/
theorem attemptSuccess_eq_none (o : AttemptOutcome)
    (h : ∀ body, o ≠ AttemptOutcome.response 200 body) :
    attemptSuccess o = none := by
  cases o with
  | response s b =>
    by_cases hs : s = 200
    · subst hs
      exact absurd rfl (h b)
    · simp [attemptSuccess, hs]
  | timeout => rfl
  | netError => rfl

/-- Shared helper: when every attempt fails, `fetch_feed` returns the empty
string after `MAX_RETRIES` attempts separated by `RETRY_DELAY`-second sleeps. -/
theorem fetch_feed_all_fail (attempts : Nat → AttemptOutcome)
    (hfail : ∀ i, i < MAX_RETRIES →
      ∀ body, attempts i ≠ AttemptOutcome.response 200 body) :
    fetch_feed attempts = ("", [RETRY_DELAY, RETRY_DELAY]) := by
  have e0 : attemptSuccess (attempts 0) = none :=
    attemptSuccess_eq_none _ (hfail 0 (by norm_num [MAX_RETRIES]))
  have e1 : attemptSuccess (attempts 1) = none :=
    attemptSuccess_eq_none _ (hfail 1 (by norm_num [MAX_RETRIES]))
  have e2 : attemptSuccess (attempts 2) = none :=
    attemptSuccess_eq_none _ (hfail 2 (by norm_num [MAX_RETRIES]))
  simp [fetch_feed, MAX_RETRIES, fetchFeedAux, e0, e1, e2]

/-- C7 counterexample: after exhausting retries the code does NOT return a
`FetchError` value whose kind distinguishes Timeout, HTTPStatus and Network —
it returns the same plain empty string `""` in all three cases, and moreover
a 204 response (a 2xx status the claim counts as success) is also treated as
a retryable failure ending in `""`, because the code tests
`response.status == 200` exactly. -/
theorem fetch_feed_no_error_kind :
    (fetch_feed (fun _ => AttemptOutcome.timeout)).1 = "" ∧
    (fetch_feed (fun _ => AttemptOutcome.netError)).1 = "" ∧
    (fetch_feed (fun _ => AttemptOutcome.timeout)).1 =
      (fetch_feed (fun _ => AttemptOutcome.netError)).1 ∧
    (fetch_feed (fun _ => AttemptOutcome.response 204 "payload")).1 = "" :=
  ⟨rfl, rfl, rfl, rfl⟩

/-- C7 (amended): `fetch_feed` makes up to `MAX_RETRIES` attempts separated
by a fixed `RETRY_DELAY` sleep, treating a timeout, a network error, or any
response whose status is not exactly 200 (including other 2xx statuses) as a
retryable failure; after exhausting all retries it returns the empty string —
the same value for every failure kind, with no error taxonomy. -/
theorem fetch_feed_retry_spec (attempts : Nat → AttemptOutcome)
    (hfail : ∀ i, i < MAX_RETRIES →
      ∀ body, attempts i ≠ AttemptOutcome.response 200 body) :
    fetch_feed attempts = ("", [RETRY_DELAY, RETRY_DELAY]) :=
  fetch_feed_all_fail attempts hfail

/-- Witness for C7 (amended), at the always-timeout trace. -/
theorem fetch_feed_retry_spec_witness :
    fetch_feed (fun _ => AttemptOutcome.timeout) = ("", [RETRY_DELAY, RETRY_DELAY]) :=
  fetch_feed_retry_spec (fun _ => AttemptOutcome.timeout)
    (fun _ _ body h => AttemptOutcome.noConfusion h)

/-- One source as `parse_all_sources` sees it: its trace of HTTP attempt
outcomes and its decoder (`parse_feed_content`), whose possible exception is
captured by `asyncio.gather(..., return_exceptions=True)` as an `.error`
value. -/
structure SourceRun where
  attempts : Nat → AttemptOutcome
  decode : String → Except Unit (List News)

/-- `RSSParser._parse_source` under `gather(..., return_exceptions=True)`:
empty fetched content (the failure marker of `fetch_feed`) yields an empty
list without calling the decoder; otherwise the decoder runs and an exception
becomes an `.error` result value. -/
def parse_source_run (s : SourceRun) : Except Unit (List News) :=
  if (fetch_feed s.attempts).1 = "" then Except.ok []
  else s.decode (fetch_feed s.attempts).1

/-- The per-source contribution to the merged result: the decoded entries of
a list result, nothing for a captured exception. -/
def contribution (s : SourceRun) : List News :=
  match parse_source_run s with
  | .ok l => l
  | .error _ => []

/-- `RSSParser.parse_all_sources`: gather all per-source results, then extend
the accumulator with every result that is a list and skip (log) every result
that is an exception. -/
def parse_all_sources (sources : List SourceRun) : List News :=
  (sources.map parse_source_run).foldl
    (fun acc r => match r with
      | .ok l => acc ++ l
      | .error _ => acc) []

/-- Unrolling the accumulator of the `parse_all_sources` fold. -/
theorem foldl_extend (rs : List (Except Unit (List News))) (acc : List News) :
    rs.foldl (fun acc r => match r with
      | .ok l => acc ++ l
      | .error _ => acc) acc =
      acc ++ (rs.map (fun r => match r with
        | .ok l => l
        | .error _ => ([] : List News))).join := by
  induction rs generalizing acc with
  | nil => simp
  | cons r rs ih =>
    cases r with
    | ok l => simp [List.foldl_cons, ih, List.append_assoc]
    | error e => simp [List.foldl_cons, ih]

/-- C3: partial-source-failure resilience.  `parse_all_sources` (a total
function: no exception escapes to the caller) returns exactly the
concatenation of the per-source contributions; a source whose fetch fails on
every attempt contributes the empty list, a source whose decoder raises
contributes the empty list, and a source that fetches nonempty content whose
decoder succeeds contributes exactly its decoded entries. -/
theorem parse_all_sources_resilient (sources : List SourceRun) :
    parse_all_sources sources = (sources.map contribution).join ∧
    (∀ s : SourceRun,
      (∀ i, i < MAX_RETRIES →
        ∀ body, s.attempts i ≠ AttemptOutcome.response 200 body) →
      contribution s = []) ∧
    (∀ s : SourceRun, ∀ e : Unit,
      s.decode (fetch_feed s.attempts).1 = Except.error e →
      contribution s = []) ∧
    (∀ s : SourceRun, ∀ entries : List News,
      (fetch_feed s.attempts).1 ≠ "" →
      s.decode (fetch_feed s.attempts).1 = Except.ok entries →
      contribution s = entries) := by
  refine ⟨?_, ?_, ?_, ?_⟩
  · rw [parse_all_sources, foldl_extend, List.nil_append, List.map_map]
    rfl
  · intro s hs
    have hf := fetch_feed_all_fail s.attempts hs
    simp [contribution, parse_source_run, hf]
  · intro s e hdec
    by_cases hc : (fetch_feed s.attempts).1 = ""
    · simp [contribution, parse_source_run, hc]
    · simp [contribution, parse_source_run, hc, hdec]
  · intro s entries hne hdec
    simp [contribution, parse_source_run, hne, hdec]

/-- A source whose fetch succeeds and whose decoder yields one entry. -/
def srcGood : SourceRun :=
  { attempts := fun _ => AttemptOutcome.response 200 "feedxml",
    decode := fun _ => Except.ok [newsA] }

/-- A source whose every fetch attempt times out. -/
def srcDead : SourceRun :=
  { attempts := fun _ => AttemptOutcome.timeout,
    decode := fun _ => Except.ok [newsB] }

/-- A source that fetches content whose decoder raises. -/
def srcBadPayload : SourceRun :=
  { attempts := fun _ => AttemptOutcome.response 200 "garbage",
    decode := fun _ => Except.error () }

/-- Witness for C3: three sources of which one times out on every attempt and
one has a raising decoder; the merged result is exactly the healthy source's
entries and the dead source's contribution is empty. -/
theorem parse_all_sources_resilient_witness :
    parse_all_sources [srcGood, srcDead, srcBadPayload] = [newsA] ∧
    contribution srcDead = [] := by
  have h := parse_all_sources_resilient [srcGood, srcDead, srcBadPayload]
  refine ⟨?_, ?_⟩
  · rw [h.1]
    decide
  · exact h.2.1 srcDead (fun _ _ body hbad => AttemptOutcome.noConfusion hbad)

end NewsBot

namespace NewsBot

/-! ### `bot/scheduler.py` -/

/-- Whether one cycle (`await self._send_scheduled_digest()`) raised. -/
inductive CycleOutcome
  | ok
  | error
deriving DecidableEq

/-- The sleep performed after an iteration of the interval loop: the
configured interval normally, the fixed 60-second backoff when the cycle
raised (`except: ... await asyncio.sleep(60)`). -/
def intervalSleepDuration (intervalSeconds : Nat) : CycleOutcome → Nat
  | .ok => intervalSeconds
  | .error => 60

/-- `NewsScheduler._run_interval_schedule`: `while self.is_running:` run one
cycle, then sleep.  `running i` is the `is_running` flag as read at the head
of iteration `i` (`stop()` clears it); `outcomes i` says whether iteration
`i`'s cycle raised.  The fuel bounds the unrolling: `some (k, sleeps)` means
the loop exited at iteration `k` having performed the sleeps `sleeps`;
`none` means the loop was still running when the fuel ran out. -/
def runIntervalSchedule (intervalSeconds : Nat) (running : Nat → Bool)
    (outcomes : Nat → CycleOutcome) : Nat → Nat → Option (Nat × List Nat)
  | 0, _ => none
  | fuel + 1, i =>
    if running i then
      match runIntervalSchedule intervalSeconds running outcomes fuel (i + 1) with
      | some (k, sleeps) =>
        some (k, intervalSleepDuration intervalSeconds (outcomes i) :: sleeps)
      | none => none
    else some (i, [])

/-- C4: in interval mode, an iteration whose cycle raises is followed by a
60-second sleep instead of the configured interval, after which the loop
resumes; the loop exits only at an iteration where the running flag (cleared
by `stop()`) reads false, and if the flag is never cleared the loop never
exits, whatever errors the cycles produce. -/
theorem interval_schedule_spec (intervalSeconds : Nat) (running : Nat → Bool)
    (outcomes : Nat → CycleOutcome) :
    (∀ fuel start k sleeps,
      runIntervalSchedule intervalSeconds running outcomes fuel start =
        some (k, sleeps) →
      running k = false ∧ start ≤ k ∧
      sleeps = (List.range' start (k - start)).map
        (fun i => match outcomes i with
          | .error => 60
          | .ok => intervalSeconds)) ∧
    ((∀ i, running i = true) →
      ∀ fuel start,
        runIntervalSchedule intervalSeconds running outcomes fuel start = none) := by
  constructor
  · intro fuel
    induction fuel with
    | zero =>
      intro start k sleeps h
      exact absurd h (by simp [runIntervalSchedule])
    | succ fuel ih =>
      intro start k sleeps h
      rw [runIntervalSchedule] at h
      by_cases hr : running start
      · rw [if_pos hr] at h
        cases hrec : runIntervalSchedule intervalSeconds running outcomes fuel
            (start + 1) with
        | none => rw [hrec] at h; cases h
        | some p =>
          obtain ⟨k', sleeps'⟩ := p
          rw [hrec] at h
          simp only [Option.some.injEq, Prod.mk.injEq] at h
          obtain ⟨hk, hs⟩ := h
          obtain ⟨hstop, hle, htrace⟩ := ih (start + 1) k' sleeps' hrec
          subst hk
          refine ⟨hstop, by omega, ?_⟩
      
          have hcount : k' - start = (k' - (start + 1)) + 1 := by omega
          rw [← hs, htrace, hcount, List.range'_succ, List.map_cons]
          congr 1
          cases outcomes start <;> rfl
      · rw [if_neg hr] at h
        simp only [Option.some.injEq, Prod.mk.injEq] at h
        obtain ⟨hk, hs⟩ := h
        subst hk
        refine ⟨by simpa using hr, le_refl _, ?_⟩
        simp [← hs]
  · intro hall fuel
    induction fuel with
    | zero => intro start; simp [runIntervalSchedule]
    | succ fuel ih =>
      intro start
      rw [runIntervalSchedule, if_pos (hall start), ih (start + 1)]

/-- Running flag for the C4 witness: `stop()` takes effect at iteration 2. -/
def wRunning : Nat → Bool := fun i => decide (i < 2)

/-- Cycle outcomes for the C4 witness: the first cycle raises, the second
succeeds. -/
def wOutcomes : Nat → CycleOutcome := fun i =>
  if i = 0 then CycleOutcome.error else CycleOutcome.ok

/-- Witness for C4: with interval 3600, a raising first cycle and a
successful second one, the loop sleeps 60 then 3600 and exits exactly when
the flag reads false (iteration 2). -/
theorem interval_schedule_spec_witness :
    wRunning 2 = false ∧ 0 ≤ 2 ∧
    ([60, 3600] : List Nat) = (List.range' 0 (2 - 0)).map
      (fun i => match wOutcomes i with
        | CycleOutcome.error => 60
        | CycleOutcome.ok => 3600) :=
  (interval_schedule_spec 3600 wRunning wOutcomes).1 5 0 2 [60, 3600] (by decide)

/-- `DAILY_SEND_TIME` = "09:00" from `config/settings.py`, parsed by
`datetime.strptime(..., "%H:%M")`, as seconds after midnight. -/
def DAILY_SEND_TIME_SECONDS : ℚ := 9 * 3600

/-- The next-run delay computation of `NewsScheduler._run_daily_schedule`:
`next_send = datetime.combine(now.date(), send_time)`, bumped by one day when
`now.time() > send_time`; the result is `(next_send - now).total_seconds()`.
Arguments are times-of-day in seconds after midnight; the shared date cancels
in the subtraction. -/
def daily_wait_seconds (nowSec sendSec : ℚ) : ℚ :=
  (if sendSec < nowSec then sendSec + 86400 else sendSec) - nowSec

/-- C8: the daily-mode delay is the time until the next occurrence of the
configured wall-clock instant — today's occurrence when the current time of
day has not passed it, otherwise tomorrow's — hence never negative; and at
current time 10:00 with target "09:00" the delay is exactly 23 hours. -/
theorem daily_wait_spec (nowSec sendSec : ℚ)
    (hn0 : 0 ≤ nowSec) (hn : nowSec < 86400)
    (hs0 : 0 ≤ sendSec) (hs : sendSec < 86400) :
    0 ≤ daily_wait_seconds nowSec sendSec ∧
    (nowSec ≤ sendSec →
      daily_wait_seconds nowSec sendSec = sendSec - nowSec) ∧
    (sendSec < nowSec →
      daily_wait_seconds nowSec sendSec = sendSec + 86400 - nowSec) ∧
    daily_wait_seconds (10 * 3600) DAILY_SEND_TIME_SECONDS = 23 * 3600 := by
  refine ⟨?_, ?_, ?_, ?_⟩
  · unfold daily_wait_seconds
    split_ifs with h
    · linarith
    · linarith [not_lt.mp h]
  · intro h
    unfold daily_wait_seconds
    rw [if_neg (not_lt.mpr h)]
  · intro h
    unfold daily_wait_seconds
    rw [if_pos h]
  · norm_num [daily_wait_seconds, DAILY_SEND_TIME_SECONDS]

/-- Witness for C8, at current time 10:00 and target 09:00. -/
theorem daily_wait_spec_witness :
    0 ≤ daily_wait_seconds (10 * 3600) (9 * 3600) ∧
    ((10 * 3600 : ℚ) ≤ 9 * 3600 →
      daily_wait_seconds (10 * 3600) (9 * 3600) = 9 * 3600 - 10 * 3600) ∧
    ((9 * 3600 : ℚ) < 10 * 3600 →
      daily_wait_seconds (10 * 3600) (9 * 3600) = 9 * 3600 + 86400 - 10 * 3600) ∧
    daily_wait_seconds (10 * 3600) DAILY_SEND_TIME_SECONDS = 23 * 3600 :=
  daily_wait_spec (10 * 3600) (9 * 3600) (by norm_num) (by norm_num)
    (by norm_num) (by norm_num)

end NewsBot
